import Mathlib

/-!
Shallow embedding of `src/BCtransaction_Tracker.py`, a Tkinter application
that fetches Bitcoin transactions for an address, parses them into records,
filters them by period / hash substring / amount range, and charts bucketed
frequencies.

Modelling conventions:
* Python `datetime` values are modelled as epoch seconds (`Int`); `timedelta`
  arithmetic becomes integer arithmetic on seconds; calendar fields (year,
  month, day-of-week) are recovered with standard civil-calendar arithmetic.
* Raw JSON transaction objects are records of optional fields, mirroring the
  `dict.get` defaults used by the code.
* Monetary amounts are exact rationals; Python's `round(x, 8)` is modelled by
  ideal decimal rounding (`pyRound`, round-half-to-even as Python specifies).
* GUI side effects (table updates, chart windows, message boxes) are
  reified as data: `FilterEffects` records what `apply_filters` did, and
  `AppState` carries the module-level mutable state (`all_records`, the
  displayed table rows, the fetch button state, the status label).
-/

namespace BCTracker

/-! ## Calendar arithmetic (model of Python `datetime` fields) -/

/-- Seconds in one day; `timedelta(days := n)` is `n * secondsPerDay`. -/
def secondsPerDay : Int := 86400

/-- Day number (days since 1970-01-01) of a civil date, floor-division based. -/
def daysFromCivil (y m d : Int) : Int :=
  let y' := if m ≤ 2 then y - 1 else y
  let era := y'.fdiv 400
  let yoe := y' - era * 400
  let doy := (153 * (m + (if 2 < m then -3 else 9)) + 2).fdiv 5 + d - 1
  let doe := yoe * 365 + yoe.fdiv 4 - yoe.fdiv 100 + doy
  era * 146097 + doe - 719468

/-- Civil date `(year, month, day)` of a day number. -/
def civilFromDays (z : Int) : Int × Int × Int :=
  let z' := z + 719468
  let era := z'.fdiv 146097
  let doe := z' - era * 146097
  let yoe := (doe - doe.fdiv 1460 + doe.fdiv 36524 - doe.fdiv 146096).fdiv 365
  let y := yoe + era * 400
  let doy := doe - (365 * yoe + yoe.fdiv 4 - yoe.fdiv 100)
  let mp := (5 * doy + 2).fdiv 153
  let d := doy - (153 * mp + 2).fdiv 5 + 1
  let m := mp + (if mp < 10 then 3 else -9)
  (if m ≤ 2 then y + 1 else y, m, d)

/-- Day number of an epoch-seconds timestamp (`datetime.date()`). -/
def dayOfSecs (t : Int) : Int := t.fdiv secondsPerDay

/-- Calendar year of an epoch-seconds timestamp (`dt.year`). -/
def yearOf (t : Int) : Int := (civilFromDays (dayOfSecs t)).1

/-- Calendar month of an epoch-seconds timestamp (`dt.month`). -/
def monthOf (t : Int) : Int := (civilFromDays (dayOfSecs t)).2.1

/-- Epoch seconds of `datetime(t.year, 1, 1)`: midnight, January 1st of
the timestamp's year. -/
def startOfYearSecs (t : Int) : Int := daysFromCivil (yearOf t) 1 1 * secondsPerDay

/-- Day-of-week ordinal of a day number, Monday = 0 (`dt.weekday()`);
day 0 (1970-01-01) was a Thursday. -/
def weekdayOf (day : Int) : Int := (day + 3).emod 7

/-! ## Python `round` (ideal decimal semantics) -/

/-- Round a rational to the nearest integer, ties to even (Python `round`). -/
def roundHalfToEven (q : ℚ) : ℤ :=
  let n := ⌊q⌋
  let r := q - (n : ℚ)
  if r < 1 / 2 then n
  else if 1 / 2 < r then n + 1
  else if n % 2 = 0 then n else n + 1

/-- `round(q, ndigits)`: round to `ndigits` fractional decimal digits. -/
def pyRound (q : ℚ) (ndigits : ℕ) : ℚ :=
  ((roundHalfToEven (q * 10 ^ ndigits) : ℤ) : ℚ) / 10 ^ ndigits

/-! ## Raw data and the parser (`parse_transactions`) -/

/-- One element of a raw transaction's `out` array; `value` is absent when
the JSON object has no `value` key (`out.get("value", 0)`). -/
structure RawOut where
  value : Option Int
deriving DecidableEq

/-- One raw transaction object from the API's `txs` array; each field is
absent when the JSON object lacks the corresponding key. -/
structure RawTx where
  hash : Option String
  time : Option Int
  out : Option (List RawOut)
deriving DecidableEq

/-- Normalized transaction record built by `parse_transactions`
(the `date_str` display field is a pure formatting of `dt` and is omitted). -/
structure TxRecord where
  hash_full : String
  hash : String
  dt : Int
  amount : ℚ
deriving DecidableEq

/-- Total satoshi output of a raw transaction:
`sum(out.get("value", 0) for out in tx.get("out", []))`. -/
def satsOf (tx : RawTx) : Int :=
  ((tx.out.getD []).map fun o => o.value.getD 0).sum

/-- Loop body of `parse_transactions` for one raw transaction. -/
def parseRecord (tx : RawTx) : TxRecord :=
  let tx_hash := tx.hash.getD ""
  let timestamp := tx.time.getD 0
  { hash_full := tx_hash
    hash := if tx_hash = "" then "(no hash)" else tx_hash.take 15 ++ "..."
    dt := timestamp
    amount := pyRound ((satsOf tx : ℚ) / 100000000) 8 }

/-- `parse_transactions`: one record per raw transaction, in input order. -/
def parse_transactions (txs : List RawTx) : List TxRecord :=
  txs.map parseRecord

/-! ## The fetcher (`fetch_transactions`) -/

/-- Outcome of `requests.get`: either the transport raised
(`requests.RequestException` with a message) or a response arrived with a
status code and an optional `txs` field in its JSON body. -/
inductive TransportResult where
  | err (msg : String)
  | ok (status : Nat) (txs : Option (List RawTx))
deriving DecidableEq

/-- `fetch_transactions`: wraps a transport exception, rejects non-200
responses, otherwise returns the `txs` array (defaulting to empty). -/
def fetch_transactions : TransportResult → Except String (List RawTx)
  | .err msg => .error ("Network error: " ++ msg)
  | .ok status body =>
      if status ≠ 200 then .error "Bitcoin address not found or API is not responding"
      else .ok (body.getD [])

/-! ## Substring containment (Python `in` on strings) -/

/-- Does the second list contain the first as a contiguous run? -/
def containsRun (q : List Char) : List Char → Bool
  | [] => q.isEmpty
  | c :: t => q.isPrefixOf (c :: t) || containsRun q t

/-- `sub in hay` for Python strings. -/
def strContains (hay sub : String) : Bool := containsRun sub.data hay.data

/-- Python `str.lower()`: lower-case every character. -/
def pyLower (s : String) : String := ⟨s.data.map Char.toLower⟩

/-- Python `str.strip()`: drop whitespace from both ends. -/
def pyStrip (s : String) : String :=
  ⟨((s.data.dropWhile Char.isWhitespace).reverse.dropWhile Char.isWhitespace).reverse⟩

/-! ## Filter criteria and the filter engine (`apply_filters`) -/

/-- A min/max amount text field, abstracted by the outcome of
`float(txt.strip())`: empty text, a parsed numeric value, or text that
raises `ValueError`. -/
inductive AmountEntry where
  | empty
  | num (q : ℚ)
  | invalid
deriving DecidableEq

/-- `float(txt) if txt else None` under `try/except ValueError`: the
resulting bound and whether a warning dialog was shown. -/
def parseBound : AmountEntry → Option ℚ × Bool
  | .empty => (none, false)
  | .num q => (some q, false)
  | .invalid => (none, true)

/-- Current values of the filter widgets read by `apply_filters`. -/
structure Criteria where
  period : String
  search : String
  minEntry : AmountEntry
  maxEntry : AmountEntry
  groupBy : String
deriving DecidableEq

/-- Period-label-to-window mapping of `apply_filters`: the filtering start
datetime, or `none` for "All time" (and any unrecognized label). -/
def periodStart (sel : String) (now : Int) : Option Int :=
  if sel = "Last 7 days" then some (now - 7 * secondsPerDay)
  else if sel = "Last 30 days" then some (now - 30 * secondsPerDay)
  else if sel = "Last 90 days" then some (now - 90 * secondsPerDay)
  else if sel = "Last 1 year" then some (now - 365 * secondsPerDay)
  else if sel = "Year to date" then some (startOfYearSecs now)
  else none

/-- Time-window predicate: `if start_dt and r["dt"] < start_dt: continue`. -/
def timePass (startDt : Option Int) (dt : Int) : Bool :=
  match startDt with
  | some s => !decide (dt < s)
  | none => true

/-- Substring predicate: `if q and q not in r["hash_full"].lower(): continue`. -/
def searchPass (q : String) (hashFull : String) : Bool :=
  decide (q = "") || strContains (pyLower hashFull) q

/-- Lower-bound predicate: `if (min_val is not None) and (r["amount"] < min_val): continue`. -/
def minPass (minVal : Option ℚ) (amount : ℚ) : Bool :=
  match minVal with
  | some m => !decide (amount < m)
  | none => true

/-- Upper-bound predicate: `if (max_val is not None) and (r["amount"] > max_val): continue`. -/
def maxPass (maxVal : Option ℚ) (amount : ℚ) : Bool :=
  match maxVal with
  | some M => !decide (M < amount)
  | none => true

/-- Conjunction of the four predicates of the filtering loop. -/
def keepRecord (startDt : Option Int) (q : String) (minVal maxVal : Option ℚ)
    (r : TxRecord) : Bool :=
  timePass startDt r.dt && searchPass q r.hash_full &&
    minPass minVal r.amount && maxPass maxVal r.amount

/-- The `filtered` list built by the loop in `apply_filters`. -/
def filteredOf (records : List TxRecord) (c : Criteria) (now : Int) : List TxRecord :=
  records.filter
    (keepRecord (periodStart c.period now) (pyLower (pyStrip c.search))
      (parseBound c.minEntry).1 (parseBound c.maxEntry).1)

/-- Observable effects of one `apply_filters` call: the rows pushed into the
table (`none` when the table was not touched), the `show_graph` call (records,
grouping, title suffix) if any, whether the "No data after filtering." info
box was shown, and whether the min/max warning dialogs were shown. -/
structure FilterEffects where
  tableSet : Option (List TxRecord)
  chart : Option (List TxRecord × String × String)
  infoShown : Bool
  minWarn : Bool
  maxWarn : Bool
deriving DecidableEq

/-- `apply_filters`, as a function of the current record set, the widget
state, and the wall-clock time `now` at the moment of the call. -/
def apply_filters (allRecords : List TxRecord) (c : Criteria) (now : Int) :
    FilterEffects :=
  if allRecords.isEmpty then
    { tableSet := none, chart := none, infoShown := false,
      minWarn := false, maxWarn := false }
  else
    let filtered := filteredOf allRecords c now
    let suffix := if c.period ≠ "" ∧ c.period ≠ "All time" then c.period else "All"
    { tableSet := some filtered
      chart := if filtered.isEmpty then none
               else some (filtered, c.groupBy, "Period: " ++ suffix)
      infoShown := filtered.isEmpty
      minWarn := (parseBound c.minEntry).2
      maxWarn := (parseBound c.maxEntry).2 }

/-! ## Aggregator (`show_graph` bucketing) -/

/-- Bucket key of one record for a grouping label, encoded as an integer
whose order agrees with the Python key order: day number for "Day", Monday
week-start day number for "Week", calendar year for "Year", and first-of-month
day number otherwise ("Month" is the default branch). -/
def keyOf (group : String) (r : TxRecord) : Int :=
  if group = "Day" then dayOfSecs r.dt
  else if group = "Week" then dayOfSecs (r.dt - weekdayOf (dayOfSecs r.dt) * secondsPerDay)
  else if group = "Year" then yearOf r.dt
  else daysFromCivil (yearOf r.dt) (monthOf r.dt) 1

/-- The `(sorted key, frequency)` sequence plotted by `show_graph`:
distinct keys in ascending order, each with its record count. -/
def graphPairs (records : List TxRecord) (group : String) : List (Int × ℕ) :=
  let keys := ((records.map (keyOf group)).toFinset).sort (· ≤ ·)
  keys.map fun k => (k, records.countP fun r => decide (keyOf group r = k))

/-- `show_graph`: returns the plotted series, or `none` when the record list
is empty (the early `if not records: return`). -/
def show_graph (records : List TxRecord) (group : String) :
    Option (List (Int × ℕ)) :=
  if records.isEmpty then none else some (graphPairs records group)

/-! ## Controller state (`update_after_fetch`, `load_transactions`) -/

/-- Module-level mutable state of the GUI: `all_records`, the rows currently
displayed in the table, whether the fetch button is enabled, and the status
label text. -/
structure AppState where
  allRecords : List TxRecord
  tableRows : List TxRecord
  btnEnabled : Bool
  status : String
deriving DecidableEq

/-- `apply_filters` acting on the application state: the table keeps its
previous rows exactly when the call did not touch the table. -/
def applyFiltersState (s : AppState) (c : Criteria) (now : Int) : AppState :=
  let eff := apply_filters s.allRecords c now
  { s with tableRows := eff.tableSet.getD s.tableRows }

/-- `handle_error`: show the message in the status label and re-enable the
fetch button; `all_records` and the table are not touched. -/
def handle_error (s : AppState) (msg : String) : AppState :=
  { s with status := msg, btnEnabled := true }

/-- `update_after_fetch`: replace `all_records`, reset status and button,
then re-apply the current filters. -/
def update_after_fetch (s : AppState) (c : Criteria) (now : Int)
    (records : List TxRecord) : AppState :=
  applyFiltersState { s with allRecords := records, status := "Ready", btnEnabled := true } c now

/-- `load_transactions`: fetch and parse, then hand the result to
`update_after_fetch`, or hand the error message to `handle_error`. -/
def load_transactions (s : AppState) (c : Criteria) (now : Int)
    (resp : TransportResult) : AppState :=
  match fetch_transactions resp with
  | .ok txs => update_after_fetch s c now (parse_transactions txs)
  | .error msg => handle_error s msg

/-! ## Helper lemmas -/

theorem isPrefixOf_iff_exists (q : List Char) :
    ∀ s : List Char, q.isPrefixOf s = true ↔ ∃ u, s = q ++ u := by
  induction q with
  | nil =>
      intro s
      simp [List.isPrefixOf]
  | cons a as ih =>
      intro s
      cases s with
      | nil => simp [List.isPrefixOf]
      | cons b bs =>
          simp only [List.isPrefixOf, Bool.and_eq_true, beq_iff_eq, ih bs]
          constructor
          · rintro ⟨rfl, u, rfl⟩
            exact ⟨u, rfl⟩
          · rintro ⟨u, h⟩
            rw [List.cons_append] at h
            obtain ⟨h1, h2⟩ := List.cons.inj h
            exact ⟨h1.symm, u, h2⟩

theorem containsRun_iff (q : List Char) :
    ∀ s : List Char, containsRun q s = true ↔ ∃ p u, s = p ++ q ++ u := by
  intro s
  induction s with
  | nil =>
      simp only [containsRun, List.isEmpty_eq_true]
      constructor
      · rintro rfl
        exact ⟨[], [], rfl⟩
      · rintro ⟨p, u, h⟩
        rcases List.append_eq_nil.mp h.symm with ⟨h1, h2⟩
        exact (List.append_eq_nil.mp h1).2
  | cons c t ih =>
      simp only [containsRun, Bool.or_eq_true, isPrefixOf_iff_exists, ih]
      constructor
      · rintro (⟨u, h⟩ | ⟨p, u, h⟩)
        · exact ⟨[], u, by simpa using h⟩
        · exact ⟨c :: p, u, by simp [h]⟩
      · rintro ⟨p, u, h⟩
        cases p with
        | nil => exact Or.inl ⟨u, by simpa using h⟩
        | cons c' p' =>
            rw [List.cons_append, List.cons_append] at h
            obtain ⟨h1, h2⟩ := List.cons.inj h
            exact Or.inr ⟨p', u, by simpa using h2⟩

theorem strContains_iff (hay sub : String) :
    strContains hay sub = true ↔ ∃ p u, hay.data = p ++ sub.data ++ u := by
  simp [strContains, containsRun_iff]

theorem strContains_append_right (a b : String) :
    strContains (a ++ b) b = true := by
  rw [strContains_iff]
  exact ⟨a.data, [], by simp [String.data_append]⟩

theorem roundHalfToEven_intCast (k : ℤ) : roundHalfToEven (k : ℚ) = k := by
  have hfloor : ⌊(k : ℚ)⌋ = k := Int.floor_intCast k
  simp only [roundHalfToEven, hfloor, sub_self]
  norm_num

theorem pyRound_eq_self (k : ℤ) (n : ℕ) :
    pyRound ((k : ℚ) / 10 ^ n) n = (k : ℚ) / 10 ^ n := by
  have h10 : ((10 : ℚ) ^ n) ≠ 0 := by positivity
  simp only [pyRound, div_mul_cancel₀ _ h10, roundHalfToEven_intCast]

theorem parseRecord_amount (tx : RawTx) :
    (parseRecord tx).amount = (satsOf tx : ℚ) / 10 ^ 8 := by
  have h : (100000000 : ℚ) = 10 ^ 8 := by norm_num
  simp only [parseRecord, h, pyRound_eq_self]

theorem timePass_iff (startDt : Option Int) (dt : Int) :
    timePass startDt dt = true ↔ ∀ s, startDt = some s → s ≤ dt := by
  cases startDt with
  | none => simp [timePass]
  | some s => simp [timePass, not_lt]

theorem searchPass_iff (q hashFull : String) :
    searchPass q hashFull = true ↔
      (q ≠ "" → ∃ p u, (pyLower hashFull).data = p ++ q.data ++ u) := by
  simp only [searchPass, Bool.or_eq_true, decide_eq_true_eq, strContains_iff]
  exact or_iff_not_imp_left

theorem minPass_iff (minVal : Option ℚ) (amount : ℚ) :
    minPass minVal amount = true ↔ ∀ m, minVal = some m → m ≤ amount := by
  cases minVal with
  | none => simp [minPass]
  | some m => simp [minPass, not_lt]

theorem maxPass_iff (maxVal : Option ℚ) (amount : ℚ) :
    maxPass maxVal amount = true ↔ ∀ M, maxVal = some M → amount ≤ M := by
  cases maxVal with
  | none => simp [maxPass]
  | some M => simp [maxPass, not_lt]

theorem map_add_sum (f g : Int → ℕ) :
    ∀ ks : List Int, (ks.map fun k => f k + g k).sum = (ks.map f).sum + (ks.map g).sum := by
  intro ks
  induction ks with
  | nil => simp
  | cons k ks ih => simp [ih]; omega

theorem indicator_sum_eq_zero (a : Int) :
    ∀ ks : List Int, a ∉ ks → (ks.map fun k => if a = k then (1 : ℕ) else 0).sum = 0 := by
  intro ks
  induction ks with
  | nil => simp
  | cons k ks ih =>
      intro h
      have hne : a ≠ k := fun hak => h (hak ▸ List.mem_cons_self k ks)
      have hnm : a ∉ ks := fun hm => h (List.mem_cons_of_mem k hm)
      simp [hne, ih hnm]

theorem indicator_sum_eq_one (a : Int) :
    ∀ ks : List Int, ks.Nodup → a ∈ ks →
      (ks.map fun k => if a = k then (1 : ℕ) else 0).sum = 1 := by
  intro ks
  induction ks with
  | nil => simp
  | cons k ks ih =>
      intro hnd hm
      rcases List.mem_cons.mp hm with rfl | hm'
      · have hnm : a ∉ ks := (List.nodup_cons.mp hnd).1
        simp [indicator_sum_eq_zero a ks hnm]
      · have hne : a ≠ k := by
          rintro rfl
          exact (List.nodup_cons.mp hnd).1 hm'
        simp [hne, ih (List.nodup_cons.mp hnd).2 hm']

theorem countP_key_sum {α : Type} (f : α → Int) :
    ∀ (l : List α) (ks : List Int), ks.Nodup → (∀ x ∈ l, f x ∈ ks) →
      (ks.map fun k => l.countP fun x => decide (f x = k)).sum = l.length := by
  intro l
  induction l with
  | nil => intro ks _ _; simp
  | cons x l ih =>
      intro ks hnd hmem
      simp only [List.countP_cons, decide_eq_true_eq]
      rw [map_add_sum (fun k => l.countP fun y => decide (f y = k))
            (fun k => if f x = k then 1 else 0)]
      rw [ih ks hnd fun y hy => hmem y (List.mem_cons_of_mem x hy)]
      rw [indicator_sum_eq_one (f x) ks hnd (hmem x (List.mem_cons_self x l))]
      simp

/-! ## Claim theorems -/

/-- C1: for every record set and filter criteria, the filtering loop of
`apply_filters` pushes into the table exactly the ordered subsequence of the
input records satisfying the conjunction of the active predicates: time
window, case-insensitive substring containment against the full untruncated
hash, and inclusive min/max amount bounds; input order is preserved (the
output is a sublist of the input, no re-sorting). -/
theorem c1_filter_exact (records : List TxRecord) (c : Criteria) (now : Int)
    (h : records ≠ []) :
    ∃ filtered : List TxRecord,
      (apply_filters records c now).tableSet = some filtered ∧
      filtered.Sublist records ∧
      ∀ r : TxRecord, r ∈ filtered ↔ r ∈ records ∧
        (∀ s, periodStart c.period now = some s → s ≤ r.dt) ∧
        (pyLower (pyStrip c.search) ≠ "" →
          ∃ p u, (pyLower r.hash_full).data = p ++ (pyLower (pyStrip c.search)).data ++ u) ∧
        (∀ m, (parseBound c.minEntry).1 = some m → m ≤ r.amount) ∧
        (∀ M, (parseBound c.maxEntry).1 = some M → r.amount ≤ M) := by
  have hne : records.isEmpty = false := by
    cases records with
    | nil => exact absurd rfl h
    | cons a l => rfl
  refine ⟨filteredOf records c now, by simp [apply_filters, hne], List.filter_sublist _, ?_⟩
  intro r
  rw [filteredOf, List.mem_filter, keepRecord]
  simp only [Bool.and_eq_true, timePass_iff, searchPass_iff, minPass_iff, maxPass_iff]
  tauto

/-- C1 witness: a concrete one-record set under "All time" criteria. -/
theorem c1_filter_witness :
    ([(⟨"AB", "AB...", 0, 1⟩ : TxRecord)] ≠ []) ∧
    ∃ filtered : List TxRecord,
      (apply_filters [⟨"AB", "AB...", 0, 1⟩]
          ⟨"All time", "", AmountEntry.empty, AmountEntry.empty, "Month"⟩ 0).tableSet =
        some filtered ∧
      filtered.Sublist [⟨"AB", "AB...", 0, 1⟩] := by
  refine ⟨List.cons_ne_nil _ _, ?_⟩
  obtain ⟨f, hf, hs, _⟩ :=
    c1_filter_exact [⟨"AB", "AB...", 0, 1⟩]
      ⟨"All time", "", AmountEntry.empty, AmountEntry.empty, "Month"⟩ 0
      (List.cons_ne_nil _ _)
  exact ⟨f, hf, hs⟩

/-- C2: `parse_transactions` is total, emitting exactly one record per raw
element in input order; a missing `hash` yields `hash_full = ""` and the fixed
placeholder "(no hash)", a missing `time` defaults to epoch zero, and a
missing `out` field yields amount zero. -/
theorem c2_parser_total_and_defaults :
    (∀ txs : List RawTx, (parse_transactions txs).length = txs.length) ∧
    (∀ txs : List RawTx, parse_transactions txs = txs.map parseRecord) ∧
    (∀ tx : RawTx, tx.hash = none →
      (parseRecord tx).hash_full = "" ∧ (parseRecord tx).hash = "(no hash)") ∧
    (∀ tx : RawTx, tx.time = none → (parseRecord tx).dt = 0) ∧
    (∀ tx : RawTx, tx.out = none → (parseRecord tx).amount = 0) := by
  refine ⟨fun txs => by simp [parse_transactions], fun txs => rfl, ?_, ?_, ?_⟩
  · intro tx h
    simp [parseRecord, h]
  · intro tx h
    simp [parseRecord, h]
  · intro tx h
    rw [parseRecord_amount]
    simp [satsOf, h]

/-- C2 witness: the all-fields-missing raw transaction. -/
theorem c2_parser_witness :
    (parseRecord ⟨none, none, none⟩).hash_full = "" ∧
    (parseRecord ⟨none, none, none⟩).hash = "(no hash)" ∧
    (parseRecord ⟨none, none, none⟩).dt = 0 ∧
    (parseRecord ⟨none, none, none⟩).amount = 0 :=
  ⟨(c2_parser_total_and_defaults.2.2.1 _ rfl).1,
   (c2_parser_total_and_defaults.2.2.1 _ rfl).2,
   c2_parser_total_and_defaults.2.2.2.1 _ rfl,
   c2_parser_total_and_defaults.2.2.2.2 _ rfl⟩

/-- C3 counterexample: a raw transaction carrying a negative `out` value
(nothing in the parser forbids it) produces a negative amount, refuting
"for any raw input the amount field is non-negative". -/
theorem c3_counterexample :
    ¬ (0 ≤ (parseRecord ⟨some "deadbeef", some 0, some [⟨some (-1)⟩]⟩).amount) := by
  rw [parseRecord_amount]
  have hs : satsOf ⟨some "deadbeef", some 0, some [⟨some (-1)⟩]⟩ = -1 := by
    simp [satsOf]
  rw [hs]
  norm_num

/-- C3 (amended): whenever every `out` value of the raw transaction is
non-negative, the parsed amount is non-negative; and for every raw input the
amount has exactly at most 8 fractional decimal digits (it is an integer
multiple of 10⁻⁸). -/
theorem c3_amount_amended (tx : RawTx) :
    ((∀ o ∈ tx.out.getD [], 0 ≤ o.value.getD 0) → 0 ≤ (parseRecord tx).amount) ∧
    ∃ k : ℤ, (parseRecord tx).amount = (k : ℚ) / 10 ^ 8 := by
  constructor
  · intro h
    rw [parseRecord_amount]
    have hs : (0 : ℤ) ≤ satsOf tx := by
      apply List.sum_nonneg
      intro x hx
      rw [List.mem_map] at hx
      obtain ⟨o, ho, rfl⟩ := hx
      exact h o ho
    apply div_nonneg
    · exact_mod_cast hs
    · positivity
  · exact ⟨satsOf tx, parseRecord_amount tx⟩

/-- C3 witness: a concrete raw transaction with one 5-satoshi output. -/
theorem c3_amount_witness :
    0 ≤ (parseRecord ⟨some "abc", some 100, some [⟨some 5⟩]⟩).amount ∧
    ∃ k : ℤ, (parseRecord ⟨some "abc", some 100, some [⟨some 5⟩]⟩).amount = (k : ℚ) / 10 ^ 8 :=
  ⟨(c3_amount_amended _).1 (by decide), (c3_amount_amended _).2⟩

/-- C5: the fixed period-label enumeration of `apply_filters` maps
"Last 7/30/90 days" and "Last 1 year" to `now` minus 7/30/90/365 days,
"Year to date" to the start of the current calendar year, and "All time" to
no constraint; the time-window predicate keeps a record exactly when its
timestamp is at least the window start. `now` enters as the argument taken
at the moment of filtering. -/
theorem c5_period_mapping :
    ∀ now : Int,
      periodStart "Last 7 days" now = some (now - 7 * 86400) ∧
      periodStart "Last 30 days" now = some (now - 30 * 86400) ∧
      periodStart "Last 90 days" now = some (now - 90 * 86400) ∧
      periodStart "Last 1 year" now = some (now - 365 * 86400) ∧
      periodStart "Year to date" now = some (startOfYearSecs now) ∧
      periodStart "All time" now = none ∧
      (∀ s dt : Int, timePass (some s) dt = true ↔ s ≤ dt) ∧
      (∀ dt : Int, timePass none dt = true) := by
  intro now
  refine ⟨by simp [periodStart, secondsPerDay], by simp [periodStart, secondsPerDay],
    by simp [periodStart, secondsPerDay], by simp [periodStart, secondsPerDay],
    by simp [periodStart], by simp [periodStart],
    fun s dt => by simp [timePass, not_lt], fun dt => rfl⟩

/-- C4: `fetch_transactions` fails when the transport raises — wrapping the
underlying cause and preserving its message inside the wrapped message — and
when the HTTP status is not 200, with a message containing "not found"; on
any fetch failure `load_transactions` leaves the prior record set and table
untouched and re-enables the fetch button (interactive state). -/
theorem c4_fetch_failures :
    (∀ msg : String,
        fetch_transactions (.err msg) = .error ("Network error: " ++ msg) ∧
        strContains ("Network error: " ++ msg) msg = true) ∧
    (∀ (status : Nat) (body : Option (List RawTx)), status ≠ 200 →
        fetch_transactions (.ok status body) =
          .error "Bitcoin address not found or API is not responding" ∧
        strContains "Bitcoin address not found or API is not responding" "not found" = true) ∧
    (∀ (s : AppState) (c : Criteria) (now : Int) (resp : TransportResult) (msg : String),
        fetch_transactions resp = .error msg →
        load_transactions s c now resp = handle_error s msg ∧
        (load_transactions s c now resp).allRecords = s.allRecords ∧
        (load_transactions s c now resp).tableRows = s.tableRows ∧
        (load_transactions s c now resp).btnEnabled = true ∧
        (load_transactions s c now resp).status = msg) := by
  refine ⟨fun msg => ⟨rfl, strContains_append_right _ _⟩, ?_, ?_⟩
  · intro status body h
    refine ⟨?_, by decide⟩
    simp [fetch_transactions, h]
  · intro s c now resp msg h
    have hl : load_transactions s c now resp = handle_error s msg := by
      simp [load_transactions, h]
    exact ⟨hl, by rw [hl]; rfl, by rw [hl]; rfl, by rw [hl]; rfl, by rw [hl]; rfl⟩

/-- C4 witness: an HTTP 404 response during a fetch started from a state
with an empty record set. -/
theorem c4_fetch_witness :
    (fetch_transactions (.ok 404 none) =
        .error "Bitcoin address not found or API is not responding") ∧
    strContains "Bitcoin address not found or API is not responding" "not found" = true ∧
    (load_transactions ⟨[], [], false, "Fetching data..."⟩
        ⟨"All time", "", AmountEntry.empty, AmountEntry.empty, "Month"⟩ 0
        (.ok 404 none)).allRecords = [] ∧
    (load_transactions ⟨[], [], false, "Fetching data..."⟩
        ⟨"All time", "", AmountEntry.empty, AmountEntry.empty, "Month"⟩ 0
        (.ok 404 none)).btnEnabled = true := by
  have h1 := c4_fetch_failures.2.1 404 none (by decide)
  have h2 := c4_fetch_failures.2.2 ⟨[], [], false, "Fetching data..."⟩
    ⟨"All time", "", AmountEntry.empty, AmountEntry.empty, "Month"⟩ 0
    (.ok 404 none) _ h1.1
  exact ⟨h1.1, h1.2, h2.2.1, h2.2.2.2.1⟩

/-- C6: for every record subset and grouping, the bucketed series of
`show_graph` lists its (bucket key, count) pairs sorted strictly ascending by
key, and the counts sum to the size of the subset; on a non-empty subset the
plotted series is exactly this one. -/
theorem c6_aggregation (records : List TxRecord) (group : String) :
    List.Sorted (· < ·) ((graphPairs records group).map Prod.fst) ∧
    ((graphPairs records group).map Prod.snd).sum = records.length ∧
    (records ≠ [] → show_graph records group = some (graphPairs records group)) := by
  have hfst : (graphPairs records group).map Prod.fst =
      ((records.map (keyOf group)).toFinset).sort (· ≤ ·) := by
    simp [graphPairs, List.map_map, Function.comp_def]
  have hsnd : (graphPairs records group).map Prod.snd =
      (((records.map (keyOf group)).toFinset).sort (· ≤ ·)).map
        (fun k => records.countP fun r => decide (keyOf group r = k)) := by
    simp [graphPairs, List.map_map, Function.comp_def]
  refine ⟨?_, ?_, ?_⟩
  · rw [hfst]
    exact Finset.sort_sorted_lt _
  · rw [hsnd]
    apply countP_key_sum (keyOf group) records
    · exact Finset.sort_nodup _ _
    · intro x hx
      rw [Finset.mem_sort, List.mem_toFinset]
      exact List.mem_map_of_mem _ hx
  · intro h
    have hne : records.isEmpty = false := by
      cases records with
      | nil => exact absurd rfl h
      | cons a l => rfl
    simp [show_graph, hne]

/-- C6 witness: a concrete one-record subset under "Month" grouping. -/
theorem c6_aggregation_witness :
    List.Sorted (· < ·) ((graphPairs [⟨"a", "a...", 0, 0⟩] "Month").map Prod.fst) ∧
    ((graphPairs [⟨"a", "a...", 0, 0⟩] "Month").map Prod.snd).sum = 1 ∧
    show_graph [⟨"a", "a...", 0, 0⟩] "Month" =
      some (graphPairs [⟨"a", "a...", 0, 0⟩] "Month") := by
  have h := c6_aggregation [⟨"a", "a...", 0, 0⟩] "Month"
  exact ⟨h.1, h.2.1, h.2.2 (List.cons_ne_nil _ _)⟩

/-- C7: when filtering a non-empty record set yields zero matching records,
`apply_filters` skips chart rendering, shows the info message, and still
clears the table to empty; `show_graph` itself also skips empty input. -/
theorem c7_empty_result (records : List TxRecord) (c : Criteria) (now : Int)
    (h : records ≠ []) (hf : filteredOf records c now = []) :
    (apply_filters records c now).chart = none ∧
    (apply_filters records c now).infoShown = true ∧
    (apply_filters records c now).tableSet = some [] ∧
    (∀ g : String, show_graph [] g = none) := by
  have hne : records.isEmpty = false := by
    cases records with
    | nil => exact absurd rfl h
    | cons a l => rfl
  refine ⟨?_, ?_, ?_, fun g => rfl⟩ <;> simp [apply_filters, hne, hf]

/-- C7 witness: a record 10 days old filtered with "Last 7 days". -/
theorem c7_empty_witness :
    ([(⟨"", "(no hash)", 0, 0⟩ : TxRecord)] ≠ []) ∧
    filteredOf [⟨"", "(no hash)", 0, 0⟩]
      ⟨"Last 7 days", "", AmountEntry.empty, AmountEntry.empty, "Month"⟩ (10 * 86400) = [] ∧
    (apply_filters [⟨"", "(no hash)", 0, 0⟩]
      ⟨"Last 7 days", "", AmountEntry.empty, AmountEntry.empty, "Month"⟩ (10 * 86400)).chart = none ∧
    (apply_filters [⟨"", "(no hash)", 0, 0⟩]
      ⟨"Last 7 days", "", AmountEntry.empty, AmountEntry.empty, "Month"⟩ (10 * 86400)).infoShown = true ∧
    (apply_filters [⟨"", "(no hash)", 0, 0⟩]
      ⟨"Last 7 days", "", AmountEntry.empty, AmountEntry.empty, "Month"⟩ (10 * 86400)).tableSet = some [] := by
  have hf : filteredOf [(⟨"", "(no hash)", 0, 0⟩ : TxRecord)]
      ⟨"Last 7 days", "", AmountEntry.empty, AmountEntry.empty, "Month"⟩ (10 * 86400) = [] := by
    decide
  have h := c7_empty_result _ _ _ (List.cons_ne_nil _ _) hf
  exact ⟨List.cons_ne_nil _ _, hf, h.1, h.2.1, h.2.2.1⟩

/-- C8 counterexample: on an empty record set `apply_filters` returns before
reading the amount fields, so a non-numeric min entry surfaces no warning —
refuting "for every Record Set ... a warning is surfaced". -/
theorem c8_counterexample :
    (apply_filters [] ⟨"All time", "", AmountEntry.invalid, AmountEntry.empty, "Month"⟩
      0).minWarn = false := rfl

/-- C8 (amended): for every non-empty record set, a non-numeric min (resp.
max) amount entry surfaces a warning rather than a hard failure, is treated
as unconstrained, and leaves the table, chart and info outcome identical to
those for an empty entry. -/
theorem c8_bound_amended (records : List TxRecord) (c : Criteria) (now : Int)
    (h : records ≠ []) :
    (c.minEntry = AmountEntry.invalid →
      (apply_filters records c now).minWarn = true ∧
      (apply_filters records c now).tableSet =
        (apply_filters records { c with minEntry := AmountEntry.empty } now).tableSet ∧
      (apply_filters records c now).chart =
        (apply_filters records { c with minEntry := AmountEntry.empty } now).chart ∧
      (apply_filters records c now).infoShown =
        (apply_filters records { c with minEntry := AmountEntry.empty } now).infoShown) ∧
    (c.maxEntry = AmountEntry.invalid →
      (apply_filters records c now).maxWarn = true ∧
      (apply_filters records c now).tableSet =
        (apply_filters records { c with maxEntry := AmountEntry.empty } now).tableSet ∧
      (apply_filters records c now).chart =
        (apply_filters records { c with maxEntry := AmountEntry.empty } now).chart ∧
      (apply_filters records c now).infoShown =
        (apply_filters records { c with maxEntry := AmountEntry.empty } now).infoShown) := by
  have hne : records.isEmpty = false := by
    cases records with
    | nil => exact absurd rfl h
    | cons a l => rfl
  constructor
  · intro hmin
    have hfe : filteredOf records c now =
        filteredOf records { c with minEntry := AmountEntry.empty } now := by
      simp [filteredOf, hmin, parseBound]
    refine ⟨?_, ?_, ?_, ?_⟩ <;> simp [apply_filters, hne, hfe, hmin, parseBound]
  · intro hmax
    have hfe : filteredOf records c now =
        filteredOf records { c with maxEntry := AmountEntry.empty } now := by
      simp [filteredOf, hmax, parseBound]
    refine ⟨?_, ?_, ?_, ?_⟩ <;> simp [apply_filters, hne, hfe, hmax, parseBound]

/-- C8 witness: a one-record set with both amount entries non-numeric. -/
theorem c8_bound_witness :
    (apply_filters [⟨"a", "a...", 0, 0⟩]
      ⟨"All time", "", AmountEntry.invalid, AmountEntry.invalid, "Month"⟩ 0).minWarn = true ∧
    (apply_filters [⟨"a", "a...", 0, 0⟩]
      ⟨"All time", "", AmountEntry.invalid, AmountEntry.invalid, "Month"⟩ 0).maxWarn = true ∧
    (apply_filters [⟨"a", "a...", 0, 0⟩]
      ⟨"All time", "", AmountEntry.invalid, AmountEntry.invalid, "Month"⟩ 0).tableSet =
      (apply_filters [⟨"a", "a...", 0, 0⟩]
        ⟨"All time", "", AmountEntry.empty, AmountEntry.invalid, "Month"⟩ 0).tableSet := by
  have h := c8_bound_amended [⟨"a", "a...", 0, 0⟩]
    ⟨"All time", "", AmountEntry.invalid, AmountEntry.invalid, "Month"⟩ 0
    (List.cons_ne_nil _ _)
  exact ⟨(h.1 rfl).1, (h.2 rfl).1, (h.1 rfl).2.1⟩

/-- C9 counterexample: the same criteria applied twice to the same record
set produce different outputs when the wall clock advanced past a record's
window boundary between the two applications — refuting identical output
"including for time-window periods". -/
theorem c9_counterexample :
    (apply_filters [⟨"a", "a...", 0, 0⟩]
        ⟨"Last 7 days", "", AmountEntry.empty, AmountEntry.empty, "Month"⟩
        (7 * 86400)).tableSet ≠
    (apply_filters [⟨"a", "a...", 0, 0⟩]
        ⟨"Last 7 days", "", AmountEntry.empty, AmountEntry.empty, "Month"⟩
        (7 * 86400 + 1)).tableSet := by
  decide

/-- C9 (amended): with the wall-clock reading fixed, filtering is
idempotent — re-filtering an already-filtered subset with the same criteria
and clock changes nothing, so two applications at the same instant (and any
two applications under clock-independent criteria) yield identical output;
with a time-window period the output may differ across instants because the
window is re-evaluated against the clock at each application. -/
theorem c9_idempotent_amended (records : List TxRecord) (c : Criteria) (now : Int) :
    filteredOf (filteredOf records c now) c now = filteredOf records c now := by
  simp only [filteredOf, List.filter_filter]
  exact List.filter_congr fun x _ => Bool.and_self _

/-- C10: on an empty record set `apply_filters` is a complete no-op — a
constant result independent of the criteria and clock, touching neither
table nor chart and showing no message — so after a successful fetch that
returns zero transactions the table still shows the rows of the previous
fetch. -/
theorem c10_empty_noop (s : AppState) (c c' : Criteria) (now now' : Int) :
    apply_filters [] c now =
      { tableSet := none, chart := none, infoShown := false,
        minWarn := false, maxWarn := false } ∧
    apply_filters [] c now = apply_filters [] c' now' ∧
    (applyFiltersState { s with allRecords := [] } c now).tableRows = s.tableRows ∧
    (update_after_fetch s c now []).tableRows = s.tableRows ∧
    (load_transactions s c now (.ok 200 (some []))).tableRows = s.tableRows :=
  ⟨rfl, rfl, rfl, rfl, rfl⟩

end BCTracker
